import Mathlib

/-!
# Mini blog backend (`backend/index.js`)

A shallow embedding of the Express application in `backend/index.js`: the CORS
middleware, the six post handlers (create / list / delete, registered once under
`/api/posts` and once under `/posts`), the health check and the endpoint list,
together with the one table `posts` that the handlers reach through `pool.query`.

Every request is run from a fresh response object; the run records the responses
written, the diagnostics passed to `console.error` and the queries handed to the
pool, so that "exactly one response", "no query" and "no retry" are statements
about the recorded run.
-/

namespace MiniBlog

/-! ## Values of the request body -/

/-- A JavaScript value found in a field of the parsed request body, as far as a
handler can observe it: it is tested for truthiness and handed to `pool.query` as
a parameter. `object` stands for any array or object value (always truthy) and
carries the text sent to the database for it; `num` is an integral number. -/
inductive JVal where
  | undefined
  | null
  | bool (b : Bool)
  | num (n : Int)
  | str (s : String)
  | object (pgText : String)
  deriving DecidableEq, Repr

/-- JavaScript truthiness, the test behind `!title`: `undefined`, `null`, `false`,
`0` and the empty string are falsy, everything else is truthy. -/
def JVal.truthy : JVal → Bool
  | .undefined => false
  | .null => false
  | .bool b => b
  | .num n => decide (n ≠ 0)
  | .str s => decide (s ≠ "")
  | .object _ => true

/-- The text node-postgres sends for a query parameter; `none` is SQL `NULL`. -/
def JVal.pgText : JVal → Option String
  | .undefined => none
  | .null => none
  | .bool b => some (if b then "true" else "false")
  | .num n => some (toString n)
  | .str s => some s
  | .object t => some t

/-- Property read on a parsed body or on `req.params`: an absent key reads as
`undefined`. -/
def field (o : List (String × JVal)) (key : String) : JVal :=
  (o.lookup key).getD JVal.undefined

/-! ## The `posts` table -/

/-- One row of `posts`: `id SERIAL PRIMARY KEY, title TEXT NOT NULL,
content TEXT NOT NULL, created_at TIMESTAMP DEFAULT CURRENT_TIMESTAMP`.
The timestamp is a count of microseconds; `none` is SQL `NULL` (the column is
nullable). -/
structure Row where
  id : Int
  title : String
  content : String
  created_at : Option Nat
  deriving DecidableEq, Repr

/-- The error object a rejected `pool.query` throws; only `message` is read. -/
structure PgError where
  message : String
  deriving DecidableEq, Repr

/-- The database as the pool reaches it. `seq` is the last value handed out by the
sequence behind `id SERIAL`, `now` is the reading of `CURRENT_TIMESTAMP` for the
next statement, and `fault` is `some msg` when the pool cannot reach the server,
in which case every query is rejected with that message. -/
structure DB where
  posts : List Row
  seq : Int
  now : Nat
  fault : Option String
  deriving DecidableEq, Repr

/-- The three statements the application sends, with their parameter arrays. -/
inductive Query where
  /-- Statement `INSERT INTO posts (title, content) VALUES ($1, $2) RETURNING *` with `[title, content]`. -/
  | insert (title content : JVal)
  /-- Statement `SELECT * FROM posts ORDER BY created_at DESC`. -/
  | selectAll
  /-- Statement `DELETE FROM posts WHERE id = $1 RETURNING *` with `[id]`. -/
  | delete (id : JVal)
  deriving DecidableEq, Repr

/-- Largest value of the `integer` type of a `SERIAL` column. -/
def maxInt4 : Int := 2147483647

/-- Smallest value of the `integer` type. -/
def minInt4 : Int := -2147483648

/-- White space skipped around an integer literal. -/
def isSpaceChar (c : Char) : Bool :=
  c = ' ' || c = '\t' || c = '\n' || c = '\r'

/-- Value of a non-empty run of decimal digits. -/
def digitsValue : List Char → Option Nat
  | [] => none
  | cs => if cs.all Char.isDigit then some (cs.foldl (fun acc c => 10 * acc + (c.toNat - 48)) 0) else none

/-- An optionally signed run of decimal digits. -/
def signedValue : List Char → Option Int
  | '-' :: cs => (digitsValue cs).map (fun n => - (n : Int))
  | '+' :: cs => (digitsValue cs).map (fun n => (n : Int))
  | cs => (digitsValue cs).map (fun n => (n : Int))

/-- Conversion of a text parameter to the `integer` type of the `id` column, as done
for `WHERE id = $1`: surrounding white space is skipped, then an optionally signed
decimal number within the range of the type is expected; anything else is rejected
by the server. -/
def pgInt4 (s : String) : Except PgError Int :=
  let body := ((s.toList.dropWhile isSpaceChar).reverse.dropWhile isSpaceChar).reverse
  match signedValue body with
  | none => .error ⟨"invalid input syntax for type integer: " ++ s⟩
  | some i =>
    if minInt4 ≤ i ∧ i ≤ maxInt4 then .ok i
    else .error ⟨"value " ++ s ++ " is out of range for type integer"⟩

/-- Order of `ORDER BY created_at DESC`: `a` may come before `b`. A `NULL` timestamp
sorts before every other value in descending order. -/
def tsDesc (a b : Row) : Prop :=
  match a.created_at, b.created_at with
  | none, _ => True
  | some _, none => False
  | some x, some y => y ≤ x

instance tsDesc.decidable : DecidableRel tsDesc := fun a b => by
  unfold tsDesc
  cases a.created_at <;> cases b.created_at <;> infer_instance

/-- The result of `SELECT * FROM posts ORDER BY created_at DESC`. Rows whose
timestamps are equal keep the order they have in the table (SQL leaves their order
open). -/
def orderByCreatedAtDesc (rows : List Row) : List Row :=
  rows.insertionSort tsDesc

/-- Execution of one statement by `pool.query`: the rows of the result (or the error
the promise is rejected with) and the database afterwards.

* `INSERT`: the next value of the sequence is taken (also when the statement then
  fails), the primary key is checked, and the new row is stamped with `now`.
* `SELECT`: all rows, ordered; the table is not changed.
* `DELETE`: the rows with the given id are removed and returned. -/
def poolQuery (q : Query) (db : DB) : Except PgError (List Row) × DB :=
  match db.fault with
  | some msg => (.error ⟨msg⟩, db)
  | none =>
    match q with
    | .insert title content =>
      match title.pgText, content.pgText with
      | some t, some c =>
        if maxInt4 ≤ db.seq then
          (.error ⟨"nextval: reached maximum value of sequence posts_id_seq"⟩, db)
        else
          let id := db.seq + 1
          if db.posts.any (fun r => r.id = id) then
            (.error ⟨"duplicate key value violates unique constraint posts_pkey"⟩,
              { db with seq := id })
          else
            let row : Row := ⟨id, t, c, some db.now⟩
            (.ok [row], { db with seq := id, posts := db.posts ++ [row] })
      | _, _ =>
        (.error ⟨"null value violates not-null constraint"⟩, db)
    | .selectAll => (.ok (orderByCreatedAtDesc db.posts), db)
    | .delete id =>
      match id.pgText with
      | none => (.ok [], db)
      | some s =>
        match pgInt4 s with
        | .error e => (.error e, db)
        | .ok i =>
          (.ok (db.posts.filter (fun r => r.id = i)),
            { db with posts := db.posts.filter (fun r => ¬ r.id = i) })

/-! ## Requests and responses -/

/-- Request methods. -/
inductive Method where
  | GET | POST | PUT | DELETE | OPTIONS | HEAD | PATCH
  deriving DecidableEq, Repr

/-- An incoming request after `express.json()`: the method, the path as its list of
segments (`/api/posts/7` is `["api", "posts", "7"]`), `req.body`, and `req.params` as
filled in by the router. `req.body` is `some props` when it is an object with the
properties `props`, and `none` when it is `undefined`: Express 5 leaves it so for a
request that carries no JSON body, whereas Express 4 sets it to the empty object
(`some []`). A request whose body does not parse is turned away by `express.json()`
and reaches no route; it is not a `Request` here. -/
structure Request where
  method : Method
  path : List String
  body : Option (List (String × JVal))
  params : List (String × JVal)
  deriving DecidableEq, Repr

/-- The `TypeError` thrown by a statement of a handler; only `message` is read. -/
structure TypeError where
  message : String
  deriving DecidableEq, Repr

/-- The JSON documents the handlers serialise. -/
inductive JsonDoc where
  /-- The object `{ error: msg }`. -/
  | error (msg : String)
  /-- One row of `posts`. -/
  | post (row : Row)
  /-- An array of rows. -/
  | posts (rows : List Row)
  /-- The object `{ message: ..., deleted_post: row }`. -/
  | deleted (message : String) (deleted_post : Row)
  /-- The object `{ message: ..., endpoints: [...] }`. -/
  | info (message : String) (endpoints : List String)
  deriving DecidableEq, Repr

/-- Body of a written response: nothing, a text, or a JSON document. -/
inductive Payload where
  | empty
  | text (s : String)
  | json (doc : JsonDoc)
  deriving DecidableEq, Repr

/-- The response object `res`: the status code set so far (200 until changed), the
headers set so far, and every response written, each with its status and body. -/
structure Res where
  statusCode : Nat
  headers : List (String × String)
  sent : List (Nat × Payload)
  deriving DecidableEq, Repr

/-- A call of `console.error(label, err)`. -/
structure LogEntry where
  label : String
  err : PgError
  deriving DecidableEq, Repr

/-- The run of one request: the database, the response object, the diagnostics the
handlers passed to `console.error` and the queries handed to the pool (each with its
outcome), oldest first. -/
structure Ctx where
  db : DB
  res : Res
  log : List LogEntry
  queries : List (Query × Except PgError (List Row))

/-- State at the arrival of a request. -/
def Ctx.start (db : DB) : Ctx :=
  { db := db, res := ⟨200, [], []⟩, log := [], queries := [] }

/-- Call `res.header(name, value)`: sets the header, replacing an earlier value. -/
def Ctx.header (c : Ctx) (name value : String) : Ctx :=
  { c with res := { c.res with
      headers := (c.res.headers.filter (fun h => ¬ h.1 = name)) ++ [(name, value)] } }

/-- Call `res.status(code)`. -/
def Ctx.status (c : Ctx) (code : Nat) : Ctx :=
  { c with res := { c.res with statusCode := code } }

/-- Call `res.send(body)`: writes the response with the current status code. -/
def Ctx.send (c : Ctx) (body : Payload) : Ctx :=
  { c with res := { c.res with sent := c.res.sent ++ [(c.res.statusCode, body)] } }

/-- Call `res.json(doc)`. -/
def Ctx.json (c : Ctx) (doc : JsonDoc) : Ctx :=
  c.send (.json doc)

/-- The text `res.sendStatus` sends as the body: the status message of the code
(spelled out for the codes this application uses), or the code itself when it has no
message. -/
def statusMessage (code : Nat) : String :=
  if code = 200 then "OK"
  else if code = 201 then "Created"
  else if code = 400 then "Bad Request"
  else if code = 404 then "Not Found"
  else if code = 500 then "Internal Server Error"
  else toString code

/-- Call `res.sendStatus(code)`: sets the status code and sends its status message as the
body of the response. -/
def Ctx.sendStatus (c : Ctx) (code : Nat) : Ctx :=
  (c.status code).send (.text (statusMessage code))

/-- Call `console.error(label, err)`. -/
def Ctx.consoleError (c : Ctx) (label : String) (err : PgError) : Ctx :=
  { c with log := c.log ++ [⟨label, err⟩] }

/-- Call `await pool.query(...)`: runs the statement and records it. -/
def Ctx.query (c : Ctx) (q : Query) : Except PgError (List Row) × Ctx :=
  let out := poolQuery q c.db
  (out.1, { c with db := out.2, queries := c.queries ++ [(q, out.1)] })

/-- Call `res.json(result.rows[0])`: an empty result gives `undefined`, for which an
empty body is written. -/
def Ctx.jsonFirst (c : Ctx) (rows : List Row) : Ctx :=
  match rows.head? with
  | some r => c.json (.post r)
  | none => c.send .empty

/-! ## The application -/

/-- The CORS middleware (`app.use`, first in the chain). Returns the run so far and
whether `next()` was called. -/
def corsMiddleware (req : Request) (c : Ctx) : Ctx × Bool :=
  let c := c.header "Access-Control-Allow-Origin" "*"
  let c := c.header "Access-Control-Allow-Methods" "GET, POST, PUT, DELETE, OPTIONS"
  let c := c.header "Access-Control-Allow-Headers" "Origin, X-Requested-With, Content-Type, Accept"
  if req.method = Method.OPTIONS then
    (c.sendStatus 200, false)
  else
    (c, true)

/-- Handler of `app.post('/api/posts', ...)`. Its first statement,
`const { title, content } = req.body`, stands before the `try` and throws a
`TypeError` when `req.body` is `undefined`; the handler then ends with that error
(`Except.error`), having done nothing else. -/
def postApiPosts (req : Request) (c : Ctx) : Except TypeError Ctx :=
  match req.body with
  | none => .error ⟨"Cannot destructure property 'title' of 'req.body' as it is undefined."⟩
  | some body =>
    let title := field body "title"
    let content := field body "content"
    if !title.truthy || !content.truthy then
      .ok ((c.status 400).json (.error "The title and content fields are mandatory."))
    else
      match c.query (.insert title content) with
      | (.ok rows, c) => .ok ((c.status 201).jsonFirst rows)
      | (.error err, c) =>
        let c := c.consoleError "Error creating post:" err
        .ok ((c.status 500).json (.error err.message))

/-- Handler of `app.get('/api/posts', ...)`. -/
def getApiPosts (_req : Request) (c : Ctx) : Ctx :=
  match c.query .selectAll with
  | (.ok rows, c) => c.json (.posts rows)
  | (.error err, c) =>
    let c := c.consoleError "Error fetching posts:" err
    (c.status 500).json (.error err.message)

/-- Handler of `app.delete('/api/posts/:id', ...)`. -/
def deleteApiPostsId (req : Request) (c : Ctx) : Ctx :=
  let id := field req.params "id"
  match c.query (.delete id) with
  | (.ok rows, c) =>
    match rows with
    | [] => (c.status 404).json (.error "Post not found")
    | first :: _ => c.json (.deleted "Post deleted successfully" first)
  | (.error err, c) =>
    let c := c.consoleError "Error deleting post:" err
    (c.status 500).json (.error err.message)

/-- Handler of `app.post('/posts', ...)`. As in `postApiPosts`, the destructuring of
`req.body` stands before the `try` and throws when `req.body` is `undefined`. -/
def postPosts (req : Request) (c : Ctx) : Except TypeError Ctx :=
  match req.body with
  | none => .error ⟨"Cannot destructure property 'title' of 'req.body' as it is undefined."⟩
  | some body =>
    let title := field body "title"
    let content := field body "content"
    if !title.truthy || !content.truthy then
      .ok ((c.status 400).json (.error "title ve content alanları zorunludur."))
    else
      match c.query (.insert title content) with
      | (.ok rows, c) => .ok ((c.status 201).jsonFirst rows)
      | (.error err, c) =>
        let c := c.consoleError "Error creating post:" err
        .ok ((c.status 500).json (.error err.message))

/-- Handler of `app.get('/posts', ...)`. -/
def getPosts (_req : Request) (c : Ctx) : Ctx :=
  match c.query .selectAll with
  | (.ok rows, c) => c.json (.posts rows)
  | (.error err, c) =>
    let c := c.consoleError "Error fetching posts:" err
    (c.status 500).json (.error err.message)

/-- Handler of `app.delete('/posts/:id', ...)`. -/
def deletePostsId (req : Request) (c : Ctx) : Ctx :=
  let id := field req.params "id"
  match c.query (.delete id) with
  | (.ok rows, c) =>
    match rows with
    | [] => (c.status 404).json (.error "Post not found")
    | first :: _ => c.json (.deleted "Post deleted successfully" first)
  | (.error err, c) =>
    let c := c.consoleError "Error deleting post:" err
    (c.status 500).json (.error err.message)

/-- Handler of `app.get('/health', ...)`. -/
def getHealth (_req : Request) (c : Ctx) : Ctx :=
  c.send (.text "OK")

/-- Handler of `app.get('/', ...)`. -/
def getRoot (_req : Request) (c : Ctx) : Ctx :=
  c.json (.info "Mini Blog Backend API"
    ["GET /health", "GET /posts or /api/posts", "POST /posts or /api/posts",
     "DELETE /posts/:id or /api/posts/:id"])

/-- A handler none of whose statements outside a `try` can throw: it always
completes. -/
def completes (handler : Request → Ctx → Ctx) : Request → Ctx → Except TypeError Ctx :=
  fun req c => .ok (handler req c)

/-- The routes in the order of their registration: the handler a request is
dispatched to, with `req.params` filled in from the path. A `HEAD` request is
dispatched to the `GET` route of its path, as no route is registered for `HEAD`. A
request that matches no route gets `none`. -/
def route (req : Request) : Option (Request × (Request → Ctx → Except TypeError Ctx)) :=
  match (if req.method = Method.HEAD then Method.GET else req.method), req.path with
  | .POST, ["api", "posts"] => some (req, postApiPosts)
  | .GET, ["api", "posts"] => some (req, completes getApiPosts)
  | .DELETE, ["api", "posts", id] =>
    some ({ req with params := [("id", .str id)] }, completes deleteApiPostsId)
  | .POST, ["posts"] => some (req, postPosts)
  | .GET, ["posts"] => some (req, completes getPosts)
  | .DELETE, ["posts", id] =>
    some ({ req with params := [("id", .str id)] }, completes deletePostsId)
  | .GET, ["health"] => some (req, completes getHealth)
  | .GET, [] => some (req, completes getRoot)
  | _, _ => none

/-- The end of a dispatched request. When the handler completed, its run stands. When
it threw, the router hands the error to the error handler of the framework, as no
error handler is registered: the request is answered with status 500 and the error
page (written here as the text `Internal Server Error`); `c` is the run at the throw.
The framework prints the error as well, which is no call of a handler and is not
recorded in `log`. -/
def defaultErrorHandler (c : Ctx) : Except TypeError Ctx → Ctx
  | .ok done => done
  | .error _ => (c.status 500).send (.text "Internal Server Error")

/-- The application: a request passes the CORS middleware and, if that calls
`next()`, is dispatched to its route. A request without a route is answered by the
framework with status 404 (its page is written here as the text `Not Found`). -/
def app (req : Request) (db : DB) : Ctx :=
  match corsMiddleware req (Ctx.start db) with
  | (c, false) => c
  | (c, true) =>
    match route req with
    | some (req, handler) => defaultErrorHandler c (handler req c)
    | none => (c.status 404).send (.text "Not Found")

/-- The two prefixes under which the post routes are registered. -/
inductive Prefix where
  | api
  | legacy
  deriving DecidableEq, Repr

/-- Path segments of a prefix: `/api/posts` and `/posts`. -/
def Prefix.segments : Prefix → List String
  | .api => ["api", "posts"]
  | .legacy => ["posts"]

/-- Request `POST <prefix>` with the given parsed body. -/
def createRequest (p : Prefix) (body : List (String × JVal)) : Request :=
  ⟨.POST, p.segments, some body, []⟩

/-- Request `POST <prefix>` that carries no JSON body, with `req.body` left
`undefined`. -/
def bodylessCreateRequest (p : Prefix) : Request :=
  ⟨.POST, p.segments, none, []⟩

/-- Request `GET <prefix>`. -/
def listRequest (p : Prefix) : Request :=
  ⟨.GET, p.segments, none, []⟩

/-- Request `DELETE <prefix>/<id>`. -/
def deleteRequest (p : Prefix) (id : String) : Request :=
  ⟨.DELETE, p.segments ++ [id], none, []⟩

/-- Request `GET /health`. -/
def healthRequest : Request :=
  ⟨.GET, ["health"], none, []⟩

/-- The headers on the response once the CORS middleware has run on a fresh
response object. -/
def corsHeaders : List (String × String) :=
  [("Access-Control-Allow-Origin", "*"),
   ("Access-Control-Allow-Methods", "GET, POST, PUT, DELETE, OPTIONS"),
   ("Access-Control-Allow-Headers", "Origin, X-Requested-With, Content-Type, Accept")]

/-- The run handed to the router: the CORS headers are set, nothing is written. -/
def Ctx.afterCors (db : DB) : Ctx :=
  ⟨db, ⟨200, corsHeaders, []⟩, [], []⟩

/-- The primary key of `posts`: no two rows share an `id`. -/
def DB.primaryKey (db : DB) : Prop :=
  (db.posts.map Row.id).Nodup

instance DB.primaryKey.decidable (db : DB) : Decidable db.primaryKey := by
  unfold DB.primaryKey
  infer_instance

/-- The database when the clock of the server reads `t`. -/
def DB.at (db : DB) (t : Nat) : DB :=
  { db with now := t }

/-- The two ways a run can end: with one response whose status is not 500, no
diagnostic and no failed query; or, after exactly one query, which failed, with the
response 500 `{error: err.message}` and one diagnostic for that error. -/
def Ctx.settled (c : Ctx) : Prop :=
  (∃ status body, c.res.sent = [(status, body)] ∧ status ≠ 500 ∧ c.log = [] ∧
    ∀ q err, (q, Except.error err) ∉ c.queries) ∨
  (∃ q err label, c.res.sent = [(500, Payload.json (JsonDoc.error err.message))] ∧
    c.log = [⟨label, err⟩] ∧ c.queries = [(q, Except.error err)])

/-! ## Routing facts -/

theorem cors_start_not_options (req : Request) (db : DB) (h : req.method ≠ Method.OPTIONS) :
    corsMiddleware req (Ctx.start db) = (Ctx.afterCors db, true) := by
  simp only [corsMiddleware, h, if_false]
  rfl

theorem app_of_route (req req' : Request) (h : Request → Ctx → Except TypeError Ctx) (db : DB)
    (hm : req.method ≠ Method.OPTIONS) (hr : route req = some (req', h)) :
    app req db = defaultErrorHandler (Ctx.afterCors db) (h req' (Ctx.afterCors db)) := by
  simp only [app, cors_start_not_options req db hm, hr]

theorem app_create_api (body : List (String × JVal)) (db : DB) :
    app (createRequest .api body) db =
      defaultErrorHandler (Ctx.afterCors db)
        (postApiPosts (createRequest .api body) (Ctx.afterCors db)) :=
  app_of_route _ _ _ db (by simp [createRequest]) rfl

theorem app_create_legacy (body : List (String × JVal)) (db : DB) :
    app (createRequest .legacy body) db =
      defaultErrorHandler (Ctx.afterCors db)
        (postPosts (createRequest .legacy body) (Ctx.afterCors db)) :=
  app_of_route _ _ _ db (by simp [createRequest]) rfl

theorem app_list_api (db : DB) :
    app (listRequest .api) db = getApiPosts (listRequest .api) (Ctx.afterCors db) :=
  app_of_route (listRequest .api) (listRequest .api) (completes getApiPosts) db
    (by simp [listRequest]) rfl

theorem app_list_legacy (db : DB) :
    app (listRequest .legacy) db = getPosts (listRequest .legacy) (Ctx.afterCors db) :=
  app_of_route (listRequest .legacy) (listRequest .legacy) (completes getPosts) db
    (by simp [listRequest]) rfl

theorem app_delete_api (id : String) (db : DB) :
    app (deleteRequest .api id) db =
      deleteApiPostsId ⟨.DELETE, ["api", "posts", id], none, [("id", .str id)]⟩
        (Ctx.afterCors db) :=
  app_of_route (deleteRequest .api id) _ (completes deleteApiPostsId) db
    (by simp [deleteRequest]) rfl

theorem app_delete_legacy (id : String) (db : DB) :
    app (deleteRequest .legacy id) db =
      deletePostsId ⟨.DELETE, ["posts", id], none, [("id", .str id)]⟩ (Ctx.afterCors db) :=
  app_of_route (deleteRequest .legacy id) _ (completes deletePostsId) db
    (by simp [deleteRequest]) rfl

theorem app_health (db : DB) :
    app healthRequest db = getHealth healthRequest (Ctx.afterCors db) :=
  app_of_route healthRequest healthRequest (completes getHealth) db
    (by simp [healthRequest]) rfl

/-- Claim C1, at the input where it fails: a `POST` to either prefix that carries no
JSON body, so that `req.body` is `undefined` and `title` and `content` are both
missing. The destructuring of `req.body`, which stands before the validation and
before the `try`, throws, and the request is answered with status 500 and the error
page of the framework, not with 400 and `{error: msg}`. No query is handed to the pool
and the database stays as it was. -/
theorem create_without_body_throws_and_gets_500 (p : Prefix) (db : DB) :
    (match p with
      | .api => postApiPosts (bodylessCreateRequest p) (Ctx.afterCors db)
      | .legacy => postPosts (bodylessCreateRequest p) (Ctx.afterCors db)) =
      Except.error ⟨"Cannot destructure property 'title' of 'req.body' as it is undefined."⟩ ∧
    (app (bodylessCreateRequest p) db).res.sent =
      [(500, Payload.text "Internal Server Error")] ∧
    (∀ msg, (app (bodylessCreateRequest p) db).res.sent ≠
      [(400, Payload.json (JsonDoc.error msg))]) ∧
    (app (bodylessCreateRequest p) db).queries = [] ∧
    (app (bodylessCreateRequest p) db).db = db := by
  have hrun : app (bodylessCreateRequest p) db =
      ⟨db, ⟨500, corsHeaders, [(500, Payload.text "Internal Server Error")]⟩, [], []⟩ := by
    cases p
    · exact app_of_route (bodylessCreateRequest .api) _ postApiPosts db
        (by simp [bodylessCreateRequest]) rfl
    · exact app_of_route (bodylessCreateRequest .legacy) _ postPosts db
        (by simp [bodylessCreateRequest]) rfl
  rw [hrun]
  refine ⟨?_, rfl, ?_, rfl, rfl⟩
  · cases p <;> rfl
  · intro msg h
    simp at h

/-- With a parsed body the validation does answer: a create request (under either
prefix) whose body is an object in which `title` or `content` is missing or the empty
string is answered with status 400 and a body `{error: msg}`, hands no query to the
pool and leaves the database as it was, so that a list request is answered the same
before and after. -/
theorem create_rejects_missing_or_empty (p : Prefix) (db : DB) (body : List (String × JVal))
    (h : field body "title" = JVal.undefined ∨ field body "title" = JVal.str "" ∨
      field body "content" = JVal.undefined ∨ field body "content" = JVal.str "") :
    (∃ msg, (app (createRequest p body) db).res.sent = [(400, Payload.json (JsonDoc.error msg))]) ∧
    (app (createRequest p body) db).queries = [] ∧
    (app (createRequest p body) db).db = db ∧
    (app (listRequest p) (app (createRequest p body) db).db).res.sent =
      (app (listRequest p) db).res.sent := by
  have hv : (!(field body "title").truthy || !(field body "content").truthy) = true := by
    rcases h with h | h | h | h <;> simp [h, JVal.truthy]
  have hrun : ∃ msg, app (createRequest p body) db =
      ⟨db, ⟨400, corsHeaders, [(400, Payload.json (JsonDoc.error msg))]⟩, [], []⟩ := by
    cases p
    · refine ⟨"The title and content fields are mandatory.", ?_⟩
      rw [app_create_api]
      simp only [postApiPosts, createRequest, hv, if_true]
      rfl
    · refine ⟨"title ve content alanları zorunludur.", ?_⟩
      rw [app_create_legacy]
      simp only [postPosts, createRequest, hv, if_true]
      rfl
  obtain ⟨msg, hrun⟩ := hrun
  rw [hrun]
  exact ⟨⟨msg, rfl⟩, rfl, rfl, rfl⟩

/-- The empty object sent to `POST /posts` on a table with one row is answered with
400. -/
theorem create_rejects_missing_or_empty_witness :
    (∃ msg, (app (createRequest .legacy []) ⟨[⟨1, "a", "b", some 5⟩], 1, 10, none⟩).res.sent =
        [(400, Payload.json (JsonDoc.error msg))]) ∧
    (app (createRequest .legacy []) ⟨[⟨1, "a", "b", some 5⟩], 1, 10, none⟩).queries = [] ∧
    (app (createRequest .legacy []) ⟨[⟨1, "a", "b", some 5⟩], 1, 10, none⟩).db =
      ⟨[⟨1, "a", "b", some 5⟩], 1, 10, none⟩ ∧
    (app (listRequest .legacy)
        (app (createRequest .legacy []) ⟨[⟨1, "a", "b", some 5⟩], 1, 10, none⟩).db).res.sent =
      (app (listRequest .legacy) ⟨[⟨1, "a", "b", some 5⟩], 1, 10, none⟩).res.sent :=
  create_rejects_missing_or_empty .legacy ⟨[⟨1, "a", "b", some 5⟩], 1, 10, none⟩ []
    (Or.inl (by decide))

/-- Claim C2, at the input where it fails: an empty body sent to `POST /api/posts` and
to `POST /posts` on the same database is answered with status 400 under both
prefixes, but the two bodies differ (the error message is English under `/api/posts`
and Turkish under `/posts`). -/
theorem create_validation_body_differs_between_prefixes :
    (app (createRequest .api []) ⟨[], 0, 0, none⟩).res.sent =
      [(400, Payload.json (JsonDoc.error "The title and content fields are mandatory."))] ∧
    (app (createRequest .legacy []) ⟨[], 0, 0, none⟩).res.sent =
      [(400, Payload.json (JsonDoc.error "title ve content alanları zorunludur."))] ∧
    (app (createRequest .api []) ⟨[], 0, 0, none⟩).res.sent ≠
      (app (createRequest .legacy []) ⟨[], 0, 0, none⟩).res.sent := by
  decide

/-- Outside the validation failure the two registrations agree: list and delete
requests, create requests whose `title` and `content` are both truthy, and create
requests without a body give the same run under `/api/posts` and under `/posts`. -/
theorem prefixes_agree_elsewhere (db : DB) :
    app (listRequest .api) db = app (listRequest .legacy) db ∧
    (∀ id, app (deleteRequest .api id) db = app (deleteRequest .legacy id) db) ∧
    (∀ body, (field body "title").truthy = true → (field body "content").truthy = true →
      app (createRequest .api body) db = app (createRequest .legacy body) db) ∧
    app (bodylessCreateRequest .api) db = app (bodylessCreateRequest .legacy) db := by
  refine ⟨?_, ?_, ?_, ?_⟩
  rotate_left 3
  · rw [app_of_route (bodylessCreateRequest .api) _ postApiPosts db
        (by simp [bodylessCreateRequest]) rfl,
      app_of_route (bodylessCreateRequest .legacy) _ postPosts db
        (by simp [bodylessCreateRequest]) rfl]
    rfl
  · rw [app_list_api, app_list_legacy]
    rfl
  · intro id
    rw [app_delete_api, app_delete_legacy]
    rfl
  · intro body ht hc
    rw [app_create_api, app_create_legacy]
    simp [postApiPosts, postPosts, createRequest, ht, hc]

/-! ## Create -/

theorem poolQuery_insert_ok (t c : String) (db db' : DB) (rows : List Row)
    (hq : poolQuery (.insert (.str t) (.str c)) db = (.ok rows, db')) :
    rows = [⟨db.seq + 1, t, c, some db.now⟩] ∧
    db' = { db with seq := db.seq + 1, posts := db.posts ++ [⟨db.seq + 1, t, c, some db.now⟩] } ∧
    ∀ r ∈ db.posts, r.id ≠ db.seq + 1 := by
  unfold poolQuery at hq
  cases hf : db.fault with
  | some msg => simp [hf] at hq
  | none =>
    simp only [hf, JVal.pgText] at hq
    by_cases hmax : maxInt4 ≤ db.seq
    · simp [hmax] at hq
    · by_cases hdup : (db.posts.any fun r => decide (r.id = db.seq + 1)) = true
      · simp [hmax, hdup] at hq
      · simp only [hmax, hdup, if_false, Bool.false_eq_true, Prod.mk.injEq, Except.ok.injEq] at hq
        refine ⟨hq.1.symm, ?_, ?_⟩
        · exact hq.2.symm
        · intro r hr hid
          apply hdup
          simp only [List.any_eq_true, decide_eq_true_eq]
          exact ⟨r, hr, hid⟩

/-- Claim C3: for non-empty strings `title` and `content` and a database in which the
insert succeeds, the create request (under either prefix) hands the pool exactly one
query, the `INSERT` with parameters `[title, content]`, and is answered with status 201
and the inserted row, whose title and content are the inputs, whose timestamp is the
current one and whose id is the id of no row already in the table; the row is added
to the table. -/
theorem create_inserts_and_returns_row (p : Prefix) (db db' : DB)
    (body : List (String × JVal)) (t c : String) (rows : List Row)
    (ht : field body "title" = JVal.str t) (hc : field body "content" = JVal.str c)
    (hne : t ≠ "") (hne' : c ≠ "")
    (hq : poolQuery (Query.insert (JVal.str t) (JVal.str c)) db = (Except.ok rows, db')) :
    ∃ row, rows = [row] ∧
      (app (createRequest p body) db).queries =
        [(Query.insert (JVal.str t) (JVal.str c), Except.ok [row])] ∧
      (app (createRequest p body) db).res.sent = [(201, Payload.json (JsonDoc.post row))] ∧
      row.title = t ∧ row.content = c ∧ row.created_at = some db.now ∧
      (∀ r ∈ db.posts, r.id ≠ row.id) ∧
      (app (createRequest p body) db).db = db' ∧
      db'.posts = db.posts ++ [row] := by
  obtain ⟨hrows, hdb', hfresh⟩ := poolQuery_insert_ok t c db db' rows hq
  have hv : (!(JVal.str t).truthy || !(JVal.str c).truthy) = false := by
    simp [JVal.truthy, hne, hne']
  refine ⟨⟨db.seq + 1, t, c, some db.now⟩, hrows, ?_⟩
  have hrun : app (createRequest p body) db =
      ⟨db', ⟨201, corsHeaders, [(201, Payload.json (JsonDoc.post ⟨db.seq + 1, t, c, some db.now⟩))]⟩,
        [], [(Query.insert (JVal.str t) (JVal.str c), Except.ok [⟨db.seq + 1, t, c, some db.now⟩])]⟩ := by
    cases p
    · rw [app_create_api]
      simp only [postApiPosts, createRequest, ht, hc, hv, Ctx.query, Ctx.afterCors, hq, hrows]
      rfl
    · rw [app_create_legacy]
      simp only [postPosts, createRequest, ht, hc, hv, Ctx.query, Ctx.afterCors, hq, hrows]
      rfl
  rw [hrun]
  refine ⟨rfl, rfl, rfl, rfl, rfl, hfresh, rfl, ?_⟩
  rw [hdb']

/-- Witness for C3: `POST /api/posts` with title `x` and content `y` on a table with
one row. -/
theorem create_inserts_and_returns_row_witness :
    ∃ row, [(⟨2, "x", "y", some 10⟩ : Row)] = [row] ∧
      (app (createRequest .api [("title", .str "x"), ("content", .str "y")])
          ⟨[⟨1, "a", "b", some 5⟩], 1, 10, none⟩).queries =
        [(Query.insert (JVal.str "x") (JVal.str "y"), Except.ok [row])] ∧
      (app (createRequest .api [("title", .str "x"), ("content", .str "y")])
          ⟨[⟨1, "a", "b", some 5⟩], 1, 10, none⟩).res.sent =
        [(201, Payload.json (JsonDoc.post row))] ∧
      row.title = "x" ∧ row.content = "y" ∧ row.created_at = some 10 ∧
      (∀ r ∈ [(⟨1, "a", "b", some 5⟩ : Row)], r.id ≠ row.id) ∧
      (app (createRequest .api [("title", .str "x"), ("content", .str "y")])
          ⟨[⟨1, "a", "b", some 5⟩], 1, 10, none⟩).db =
        ⟨[⟨1, "a", "b", some 5⟩, ⟨2, "x", "y", some 10⟩], 2, 10, none⟩ ∧
      [(⟨1, "a", "b", some 5⟩ : Row), ⟨2, "x", "y", some 10⟩] =
        [(⟨1, "a", "b", some 5⟩ : Row)] ++ [row] :=
  create_inserts_and_returns_row .api ⟨[⟨1, "a", "b", some 5⟩], 1, 10, none⟩
    ⟨[⟨1, "a", "b", some 5⟩, ⟨2, "x", "y", some 10⟩], 2, 10, none⟩
    [("title", .str "x"), ("content", .str "y")] "x" "y" [⟨2, "x", "y", some 10⟩]
    (by decide) (by decide) (by decide) (by decide) rfl

/-! ## Delete -/

theorem poolQuery_delete_ok (id : String) (db db' : DB) (rows : List Row)
    (hq : poolQuery (.delete (.str id)) db = (.ok rows, db')) :
    ∃ i, pgInt4 id = .ok i ∧ rows = db.posts.filter (fun r => r.id = i) ∧
      db' = { db with posts := db.posts.filter (fun r => ¬ r.id = i) } := by
  unfold poolQuery at hq
  cases hf : db.fault with
  | some msg => simp [hf] at hq
  | none =>
    simp only [hf, JVal.pgText] at hq
    cases hp : pgInt4 id with
    | error e => simp [hp] at hq
    | ok i =>
      simp only [hp, Prod.mk.injEq, Except.ok.injEq] at hq
      exact ⟨i, rfl, hq.1.symm, hq.2.symm⟩

theorem poolQuery_delete_of_parse (id : String) (i : Int) (db : DB)
    (hf : db.fault = none) (hp : pgInt4 id = .ok i) :
    poolQuery (.delete (.str id)) db =
      (.ok (db.posts.filter (fun r => r.id = i)),
        { db with posts := db.posts.filter (fun r => ¬ r.id = i) }) := by
  simp only [poolQuery, hf, JVal.pgText, hp]

theorem field_id (id : String) : field [("id", JVal.str id)] "id" = JVal.str id := by
  simp [field, List.lookup]

theorem app_delete_empty (p : Prefix) (id : String) (db db' : DB)
    (hq : poolQuery (.delete (.str id)) db = (.ok [], db')) :
    app (deleteRequest p id) db =
      ⟨db', ⟨404, corsHeaders, [(404, .json (.error "Post not found"))]⟩, [],
        [(.delete (.str id), .ok [])]⟩ := by
  cases p
  · rw [app_delete_api]
    simp only [deleteApiPostsId, field_id, Ctx.query, Ctx.afterCors, hq]
    rfl
  · rw [app_delete_legacy]
    simp only [deletePostsId, field_id, Ctx.query, Ctx.afterCors, hq]
    rfl

theorem app_delete_first (p : Prefix) (id : String) (db db' : DB) (first : Row) (rest : List Row)
    (hq : poolQuery (.delete (.str id)) db = (.ok (first :: rest), db')) :
    app (deleteRequest p id) db =
      ⟨db', ⟨200, corsHeaders, [(200, .json (.deleted "Post deleted successfully" first))]⟩, [],
        [(.delete (.str id), .ok (first :: rest))]⟩ := by
  cases p
  · rw [app_delete_api]
    simp only [deleteApiPostsId, field_id, Ctx.query, Ctx.afterCors, hq]
    rfl
  · rw [app_delete_legacy]
    simp only [deletePostsId, field_id, Ctx.query, Ctx.afterCors, hq]
    rfl

/-- Claim C4: when the `DELETE` query of a delete request (under either prefix) does not
fail, the answer is 404 with body `{error: 'Post not found'}` exactly when the query
returned no row, which is exactly when no row of the table has the requested id;
otherwise the answer is 200 with body
`{message: 'Post deleted successfully', deleted_post: <first returned row>}`. -/
theorem delete_not_found_iff_no_row (p : Prefix) (db db' : DB) (id : String) (rows : List Row)
    (hq : poolQuery (Query.delete (JVal.str id)) db = (Except.ok rows, db')) :
    ((app (deleteRequest p id) db).res.sent =
        [(404, Payload.json (JsonDoc.error "Post not found"))] ↔ rows = []) ∧
    (rows = [] ↔ ∀ r ∈ db.posts, pgInt4 id ≠ Except.ok r.id) ∧
    (∀ first rest, rows = first :: rest →
      (app (deleteRequest p id) db).res.sent =
        [(200, Payload.json (JsonDoc.deleted "Post deleted successfully" first))]) := by
  obtain ⟨i, hp, hrows, -⟩ := poolQuery_delete_ok id db db' rows hq
  refine ⟨?_, ?_, ?_⟩
  · cases rows with
    | nil => simp [app_delete_empty p id db db' hq]
    | cons first rest => simp [app_delete_first p id db db' first rest hq]
  · rw [hrows, hp]
    simp only [List.filter_eq_nil_iff, decide_eq_true_eq, ne_eq, Except.ok.injEq]
    constructor
    · intro h r hr heq
      exact h r hr heq.symm
    · intro h r hr heq
      exact h r hr heq.symm
  · intro first rest hfr
    subst hfr
    rw [app_delete_first p id db db' first rest hq]

/-- Witness for C4: `DELETE /posts/2` on a table with the rows 1 and 2. -/
theorem delete_not_found_iff_no_row_witness :
    ((app (deleteRequest .legacy "2")
          ⟨[⟨1, "a", "b", some 5⟩, ⟨2, "c", "d", some 9⟩], 2, 10, none⟩).res.sent =
        [(404, Payload.json (JsonDoc.error "Post not found"))] ↔
        [(⟨2, "c", "d", some 9⟩ : Row)] = []) ∧
    ([(⟨2, "c", "d", some 9⟩ : Row)] = [] ↔
      ∀ r ∈ [(⟨1, "a", "b", some 5⟩ : Row), ⟨2, "c", "d", some 9⟩],
        pgInt4 "2" ≠ Except.ok r.id) ∧
    (∀ first rest, [(⟨2, "c", "d", some 9⟩ : Row)] = first :: rest →
      (app (deleteRequest .legacy "2")
          ⟨[⟨1, "a", "b", some 5⟩, ⟨2, "c", "d", some 9⟩], 2, 10, none⟩).res.sent =
        [(200, Payload.json (JsonDoc.deleted "Post deleted successfully" first))]) :=
  delete_not_found_iff_no_row .legacy
    ⟨[⟨1, "a", "b", some 5⟩, ⟨2, "c", "d", some 9⟩], 2, 10, none⟩
    ⟨[⟨1, "a", "b", some 5⟩], 2, 10, none⟩ "2" [⟨2, "c", "d", some 9⟩] rfl

theorem filter_other_ids_eq_erase (l : List Row) (row : Row)
    (hnd : (l.map Row.id).Nodup) (hmem : row ∈ l) :
    l.filter (fun r => ¬ r.id = row.id) = l.erase row := by
  induction l with
  | nil => simp at hmem
  | cons x xs ih =>
    simp only [List.map_cons, List.nodup_cons, List.mem_map, not_exists, not_and] at hnd
    by_cases hx : x = row
    · subst hx
      have hkeep : xs.filter (fun r => ¬ r.id = x.id) = xs := by
        rw [List.filter_eq_self]
        intro r hr
        simpa using hnd.1 r hr
      rw [List.filter_cons, if_neg (by simp), hkeep, List.erase_cons_head]
    · have hin : row ∈ xs := by
        rcases List.mem_cons.mp hmem with h | h
        · exact absurd h.symm hx
        · exact h
      have hne : ¬ x.id = row.id := fun h => hnd.1 row hin h.symm
      rw [List.filter_cons, if_pos (by simpa using hne), ih hnd.2 hin,
        List.erase_cons_tail (by simpa using hx)]

theorem filter_same_id_eq_singleton (l : List Row) (row : Row)
    (hnd : (l.map Row.id).Nodup) (hmem : row ∈ l) :
    l.filter (fun r => r.id = row.id) = [row] := by
  induction l with
  | nil => simp at hmem
  | cons x xs ih =>
    simp only [List.map_cons, List.nodup_cons, List.mem_map, not_exists, not_and] at hnd
    by_cases hx : x = row
    · subst hx
      have hnone : xs.filter (fun r => r.id = x.id) = [] := by
        rw [List.filter_eq_nil_iff]
        intro r hr
        simpa using hnd.1 r hr
      rw [List.filter_cons, if_pos (by simp), hnone]
    · have hin : row ∈ xs := by
        rcases List.mem_cons.mp hmem with h | h
        · exact absurd h.symm hx
        · exact h
      have hne : ¬ x.id = row.id := fun h => hnd.1 row hin h.symm
      rw [List.filter_cons, if_neg (by simpa using hne), ih hnd.2 hin]

/-- The primary key survives every statement. -/
theorem poolQuery_preserves_primaryKey (q : Query) (db : DB) (h : db.primaryKey) :
    (poolQuery q db).2.primaryKey := by
  unfold DB.primaryKey at *
  unfold poolQuery
  split
  · exact h
  · split
    · split
      · split
        · exact h
        · simp only []
          split
          · exact h
          · rename_i hdup
            simp only [List.map_append, List.map_cons, List.map_nil]
            rw [List.nodup_append]
            refine ⟨h, List.nodup_singleton _, ?_⟩
            intro a ha hb
            simp only [List.mem_singleton] at hb
            subst hb
            apply hdup
            obtain ⟨r, hr, hid⟩ := List.mem_map.mp ha
            simp only [List.any_eq_true, decide_eq_true_eq]
            exact ⟨r, hr, hid⟩
      · exact h
    · exact h
    · split
      · exact h
      · split
        · exact h
        · exact (List.Sublist.map Row.id (List.filter_sublist db.posts)).nodup h

/-- Claim C5 as stated fails where the pool is down: the row with id 1 is in the table,
yet `DELETE /api/posts/1` is answered with 500 and the row stays. -/
theorem delete_existing_row_fails_when_pool_fails :
    (⟨1, "a", "b", some 5⟩ : Row) ∈
      (⟨[⟨1, "a", "b", some 5⟩], 1, 10, some "connection refused"⟩ : DB).posts ∧
    pgInt4 "1" = Except.ok 1 ∧
    (app (deleteRequest .api "1")
        ⟨[⟨1, "a", "b", some 5⟩], 1, 10, some "connection refused"⟩).res.sent =
      [(500, Payload.json (JsonDoc.error "connection refused"))] ∧
    (app (deleteRequest .api "1")
        ⟨[⟨1, "a", "b", some 5⟩], 1, 10, some "connection refused"⟩).db.posts =
      [⟨1, "a", "b", some 5⟩] := by
  refine ⟨by decide, rfl, by decide, by decide⟩

/-- Claim C5, amended: in a database state whose pool is not failing, a delete request
(under either prefix) for the id of a row present in the table is answered with 200
and that row as `deleted_post` (so `deleted_post.id` is the requested id), removes
exactly that row, and the same request sent again straight afterwards is answered with
404. Database states satisfy the primary key of the table. -/
theorem delete_existing_then_again (p : Prefix) (db : DB) (id : String) (row : Row)
    (hf : db.fault = none) (hpk : db.primaryKey) (hrow : row ∈ db.posts)
    (hid : pgInt4 id = Except.ok row.id) :
    (app (deleteRequest p id) db).res.sent =
      [(200, Payload.json (JsonDoc.deleted "Post deleted successfully" row))] ∧
    (app (deleteRequest p id) db).db.posts = db.posts.erase row ∧
    (app (deleteRequest p id) (app (deleteRequest p id) db).db).res.sent =
      [(404, Payload.json (JsonDoc.error "Post not found"))] := by
  have hq := poolQuery_delete_of_parse id row.id db hf hid
  have hsel := filter_same_id_eq_singleton db.posts row hpk hrow
  rw [hsel] at hq
  have hrun := app_delete_first p id db _ row [] hq
  have hposts : (app (deleteRequest p id) db).db.posts = db.posts.erase row := by
    rw [hrun]
    exact filter_other_ids_eq_erase db.posts row hpk hrow
  refine ⟨by rw [hrun], hposts, ?_⟩
  have hf' : (app (deleteRequest p id) db).db.fault = none := by
    rw [hrun]
    exact hf
  have hq' := poolQuery_delete_of_parse id row.id _ hf' hid
  have hgone : (app (deleteRequest p id) db).db.posts.filter (fun r => r.id = row.id) = [] := by
    rw [hrun]
    simp [List.filter_filter]
  rw [hgone] at hq'
  rw [app_delete_empty p id _ _ hq']

/-- Witness for the amended C5: `DELETE /api/posts/2` on a table with the rows 1 and 2. -/
theorem delete_existing_then_again_witness :
    (app (deleteRequest .api "2")
        ⟨[⟨1, "a", "b", some 5⟩, ⟨2, "c", "d", some 9⟩], 2, 10, none⟩).res.sent =
      [(200, Payload.json (JsonDoc.deleted "Post deleted successfully" ⟨2, "c", "d", some 9⟩))] ∧
    (app (deleteRequest .api "2")
        ⟨[⟨1, "a", "b", some 5⟩, ⟨2, "c", "d", some 9⟩], 2, 10, none⟩).db.posts =
      [(⟨1, "a", "b", some 5⟩ : Row), ⟨2, "c", "d", some 9⟩].erase ⟨2, "c", "d", some 9⟩ ∧
    (app (deleteRequest .api "2")
        (app (deleteRequest .api "2")
          ⟨[⟨1, "a", "b", some 5⟩, ⟨2, "c", "d", some 9⟩], 2, 10, none⟩).db).res.sent =
      [(404, Payload.json (JsonDoc.error "Post not found"))] :=
  delete_existing_then_again .api
    ⟨[⟨1, "a", "b", some 5⟩, ⟨2, "c", "d", some 9⟩], 2, 10, none⟩ "2" ⟨2, "c", "d", some 9⟩
    rfl (by decide) (by decide) rfl

/-! ## List -/

instance tsDesc.isTotal : IsTotal Row tsDesc where
  total a b := by
    unfold tsDesc
    cases a.created_at <;> cases b.created_at <;> simp
    exact Nat.le_total _ _

instance tsDesc.isTrans : IsTrans Row tsDesc where
  trans a b c := by
    unfold tsDesc
    cases a.created_at <;> cases b.created_at <;> cases c.created_at <;> simp
    exact fun h₁ h₂ => Nat.le_trans h₂ h₁

theorem poolQuery_select_ok (db db' : DB) (rows : List Row)
    (hq : poolQuery .selectAll db = (.ok rows, db')) :
    rows = orderByCreatedAtDesc db.posts ∧ db' = db ∧ db.fault = none := by
  unfold poolQuery at hq
  cases hf : db.fault with
  | some msg => simp [hf] at hq
  | none =>
    simp only [hf, Prod.mk.injEq, Except.ok.injEq] at hq
    exact ⟨hq.1.symm, hq.2.symm, rfl⟩

theorem poolQuery_select_of_up (db : DB) (hf : db.fault = none) :
    poolQuery .selectAll db = (.ok (orderByCreatedAtDesc db.posts), db) := by
  simp only [poolQuery, hf]

theorem app_list_ok (p : Prefix) (db db' : DB) (rows : List Row)
    (hq : poolQuery .selectAll db = (.ok rows, db')) :
    app (listRequest p) db =
      ⟨db', ⟨200, corsHeaders, [(200, .json (.posts rows))]⟩, [], [(.selectAll, .ok rows)]⟩ := by
  cases p
  · rw [app_list_api]
    simp only [getApiPosts, Ctx.query, Ctx.afterCors, hq]
    rfl
  · rw [app_list_legacy]
    simp only [getPosts, Ctx.query, Ctx.afterCors, hq]
    rfl

theorem pair_sublist_of_mem (l : List Row) (a b : Row) (hne : a ≠ b)
    (ha : a ∈ l) (hb : b ∈ l) : List.Sublist [a, b] l ∨ List.Sublist [b, a] l := by
  induction l with
  | nil => simp at ha
  | cons x xs ih =>
    by_cases hxa : x = a
    · subst hxa
      have hb' : b ∈ xs := by
        rcases List.mem_cons.mp hb with h | h
        · exact absurd h.symm hne
        · exact h
      exact Or.inl (List.Sublist.cons₂ x (List.singleton_sublist.mpr hb'))
    · by_cases hxb : x = b
      · subst hxb
        have ha' : a ∈ xs := by
          rcases List.mem_cons.mp ha with h | h
          · exact absurd h hne
          · exact h
        exact Or.inr (List.Sublist.cons₂ x (List.singleton_sublist.mpr ha'))
      · have ha' : a ∈ xs := by
          rcases List.mem_cons.mp ha with h | h
          · exact absurd h.symm hxa
          · exact h
        have hb' : b ∈ xs := by
          rcases List.mem_cons.mp hb with h | h
          · exact absurd h.symm hxb
          · exact h
        rcases ih ha' hb' with h | h
        · exact Or.inl (List.Sublist.cons x h)
        · exact Or.inr (List.Sublist.cons x h)

theorem poolQuery_insert_inv (title content : JVal) (db db' : DB) (rows : List Row)
    (hq : poolQuery (.insert title content) db = (.ok rows, db')) :
    ∃ row : Row, rows = [row] ∧ row.created_at = some db.now ∧
      db' = { db with seq := db.seq + 1, posts := db.posts ++ [row] } ∧
      db.fault = none ∧ ∀ r ∈ db.posts, r.id ≠ row.id := by
  unfold poolQuery at hq
  cases hf : db.fault with
  | some msg => simp [hf] at hq
  | none =>
    simp only [hf] at hq
    cases ht : title.pgText with
    | none => simp [ht] at hq
    | some t =>
      cases hc : content.pgText with
      | none => simp [ht, hc] at hq
      | some c =>
        simp only [ht, hc] at hq
        by_cases hmax : maxInt4 ≤ db.seq
        · simp [hmax] at hq
        · by_cases hdup : (db.posts.any fun r => decide (r.id = db.seq + 1)) = true
          · simp [hmax, hdup] at hq
          · simp only [hmax, hdup, if_false, Bool.false_eq_true, Prod.mk.injEq,
              Except.ok.injEq] at hq
            refine ⟨⟨db.seq + 1, t, c, some db.now⟩, hq.1.symm, rfl, hq.2.symm, rfl, ?_⟩
            intro r hr hid
            apply hdup
            simp only [List.any_eq_true, decide_eq_true_eq]
            exact ⟨r, hr, hid⟩

theorem postApiPosts_created_inv (req : Request) (db : DB) (a : Row)
    (h : (defaultErrorHandler (Ctx.afterCors db) (postApiPosts req (Ctx.afterCors db))).res.sent =
      [(201, .json (.post a))]) :
    a.created_at = some db.now ∧
    (defaultErrorHandler (Ctx.afterCors db) (postApiPosts req (Ctx.afterCors db))).db =
      { db with seq := db.seq + 1, posts := db.posts ++ [a] } ∧
    db.fault = none ∧ ∀ r ∈ db.posts, r.id ≠ a.id := by
  unfold postApiPosts at h ⊢
  cases hb : req.body with
  | none =>
    simp [hb, defaultErrorHandler, Ctx.status, Ctx.send, Ctx.afterCors] at h
  | some body =>
    simp only [hb] at h ⊢
    by_cases hv : (!(field body "title").truthy || !(field body "content").truthy) = true
    · simp [hv, defaultErrorHandler, Ctx.status, Ctx.json, Ctx.send, Ctx.afterCors] at h
    · simp only [hv, if_false, Bool.false_eq_true] at h ⊢
      rcases hq : poolQuery (.insert (field body "title") (field body "content")) db
        with ⟨res, db'⟩
      cases res with
      | error e =>
        simp [defaultErrorHandler, Ctx.query, Ctx.afterCors, hq, Ctx.status, Ctx.json, Ctx.send,
          Ctx.consoleError] at h
      | ok rows =>
        obtain ⟨row, hrows, hts, hdb', hf, hfresh⟩ := poolQuery_insert_inv _ _ db db' rows hq
        subst hrows
        simp only [defaultErrorHandler, Ctx.query, Ctx.afterCors, hq, Ctx.status, Ctx.jsonFirst,
          List.head?_cons, Ctx.json, Ctx.send, List.nil_append, List.cons.injEq, Prod.mk.injEq,
          true_and, Payload.json.injEq, JsonDoc.post.injEq, and_true] at h ⊢
        subst h
        exact ⟨hts, hdb', hf, hfresh⟩

theorem postPosts_created_inv (req : Request) (db : DB) (a : Row)
    (h : (defaultErrorHandler (Ctx.afterCors db) (postPosts req (Ctx.afterCors db))).res.sent =
      [(201, .json (.post a))]) :
    a.created_at = some db.now ∧
    (defaultErrorHandler (Ctx.afterCors db) (postPosts req (Ctx.afterCors db))).db =
      { db with seq := db.seq + 1, posts := db.posts ++ [a] } ∧
    db.fault = none ∧ ∀ r ∈ db.posts, r.id ≠ a.id := by
  unfold postPosts at h ⊢
  cases hb : req.body with
  | none =>
    simp [hb, defaultErrorHandler, Ctx.status, Ctx.send, Ctx.afterCors] at h
  | some body =>
    simp only [hb] at h ⊢
    by_cases hv : (!(field body "title").truthy || !(field body "content").truthy) = true
    · simp [hv, defaultErrorHandler, Ctx.status, Ctx.json, Ctx.send, Ctx.afterCors] at h
    · simp only [hv, if_false, Bool.false_eq_true] at h ⊢
      rcases hq : poolQuery (.insert (field body "title") (field body "content")) db
        with ⟨res, db'⟩
      cases res with
      | error e =>
        simp [defaultErrorHandler, Ctx.query, Ctx.afterCors, hq, Ctx.status, Ctx.json, Ctx.send,
          Ctx.consoleError] at h
      | ok rows =>
        obtain ⟨row, hrows, hts, hdb', hf, hfresh⟩ := poolQuery_insert_inv _ _ db db' rows hq
        subst hrows
        simp only [defaultErrorHandler, Ctx.query, Ctx.afterCors, hq, Ctx.status, Ctx.jsonFirst,
          List.head?_cons, Ctx.json, Ctx.send, List.nil_append, List.cons.injEq, Prod.mk.injEq,
          true_and, Payload.json.injEq, JsonDoc.post.injEq, and_true] at h ⊢
        subst h
        exact ⟨hts, hdb', hf, hfresh⟩

/-- A create request answered with 201 and row `a` stamped `a` with the current time
and appended it to the table; its id is new and the pool is up. -/
theorem app_created_inv (p : Prefix) (body : List (String × JVal)) (db : DB) (a : Row)
    (h : (app (createRequest p body) db).res.sent = [(201, .json (.post a))]) :
    a.created_at = some db.now ∧
    (app (createRequest p body) db).db =
      { db with seq := db.seq + 1, posts := db.posts ++ [a] } ∧
    db.fault = none ∧ ∀ r ∈ db.posts, r.id ≠ a.id := by
  cases p
  · rw [app_create_api] at h ⊢
    exact postApiPosts_created_inv _ db a h
  · rw [app_create_legacy] at h ⊢
    exact postPosts_created_inv _ db a h

/-- Claim C6 as stated fails where two posts get the same timestamp: post A and then
post B are created while the clock reads 10 (both answered with 201), and the list
that follows returns A before B. -/
theorem list_after_create_same_timestamp_returns_oldest_first :
    (app (createRequest .api [("title", .str "A"), ("content", .str "a")])
        ⟨[], 0, 10, none⟩).res.sent =
      [(201, Payload.json (JsonDoc.post ⟨1, "A", "a", some 10⟩))] ∧
    (app (createRequest .api [("title", .str "B"), ("content", .str "b")])
        (app (createRequest .api [("title", .str "A"), ("content", .str "a")])
          ⟨[], 0, 10, none⟩).db).res.sent =
      [(201, Payload.json (JsonDoc.post ⟨2, "B", "b", some 10⟩))] ∧
    (app (listRequest .api)
        (app (createRequest .api [("title", .str "B"), ("content", .str "b")])
          (app (createRequest .api [("title", .str "A"), ("content", .str "a")])
            ⟨[], 0, 10, none⟩).db).db).res.sent =
      [(200, Payload.json (JsonDoc.posts [⟨1, "A", "a", some 10⟩, ⟨2, "B", "b", some 10⟩]))] := by
  decide

/-- Claim C6, amended: when the `SELECT` of a list request (under either prefix)
succeeds, the answer is 200 with an array that holds every row of the table exactly
once, in descending `created_at` order (the empty array for the empty table), and the
database is not changed; and when post A is created and then post B, at a later
reading of the clock, the list that follows returns B before A. -/
theorem list_returns_all_rows_newest_first (p : Prefix) (db db' : DB) (rows : List Row)
    (hq : poolQuery Query.selectAll db = (Except.ok rows, db')) :
    (app (listRequest p) db).res.sent = [(200, Payload.json (JsonDoc.posts rows))] ∧
    rows.Perm db.posts ∧
    rows.Sorted tsDesc ∧
    (db.posts = [] → rows = []) ∧
    (app (listRequest p) db).db = db ∧
    ∀ (pa pb : Prefix) (start : DB) (bodyA bodyB : List (String × JVal)) (a b : Row)
      (tB tL : Nat),
      (app (createRequest pa bodyA) start).res.sent = [(201, Payload.json (JsonDoc.post a))] →
      (app (createRequest pb bodyB) ((app (createRequest pa bodyA) start).db.at tB)).res.sent =
        [(201, Payload.json (JsonDoc.post b))] →
      start.now < tB →
      ∃ listed,
        (app (listRequest p)
          ((app (createRequest pb bodyB)
            ((app (createRequest pa bodyA) start).db.at tB)).db.at tL)).res.sent =
          [(200, Payload.json (JsonDoc.posts listed))] ∧
        List.Sublist [b, a] listed := by
  obtain ⟨hrows, hdb', -⟩ := poolQuery_select_ok db db' rows hq
  have hrun := app_list_ok p db db' rows hq
  refine ⟨by rw [hrun], ?_, ?_, ?_, by rw [hrun, hdb'], ?_⟩
  · rw [hrows]
    exact List.perm_insertionSort tsDesc db.posts
  · rw [hrows]
    exact List.sorted_insertionSort tsDesc db.posts
  · intro hnil
    rw [hrows, hnil]
    rfl
  · intro pa pb start bodyA bodyB a b tB tL hA hB hlt
    obtain ⟨hta, hdbA, hfA, -⟩ := app_created_inv pa bodyA start a hA
    obtain ⟨htb, hdbB, hfB, hfresh⟩ := app_created_inv pb bodyB _ b hB
    rw [hdbB, hdbA]
    simp only [DB.at] at hfB htb hfresh ⊢
    rw [hdbA] at hfB hfresh
    simp only at hfB hfresh
    have hup : poolQuery .selectAll
        ⟨(start.posts ++ [a]) ++ [b], start.seq + 1 + 1, tL, start.fault⟩ =
        (.ok (orderByCreatedAtDesc ((start.posts ++ [a]) ++ [b])), _) :=
      poolQuery_select_of_up _ hfB
    refine ⟨_, by rw [app_list_ok p _ _ _ hup], ?_⟩
    have hne : a ≠ b := by
      intro hab
      exact hfresh a (by simp) (by rw [hab])
    have hperm := List.perm_insertionSort tsDesc ((start.posts ++ [a]) ++ [b])
    have hsorted := List.sorted_insertionSort tsDesc ((start.posts ++ [a]) ++ [b])
    have ha : a ∈ orderByCreatedAtDesc ((start.posts ++ [a]) ++ [b]) :=
      hperm.mem_iff.mpr (by simp)
    have hb : b ∈ orderByCreatedAtDesc ((start.posts ++ [a]) ++ [b]) :=
      hperm.mem_iff.mpr (by simp)
    rcases pair_sublist_of_mem _ a b hne ha hb with hab | hba
    · exfalso
      have hrel : tsDesc a b := List.pairwise_pair.mp (List.Pairwise.sublist hab hsorted)
      unfold tsDesc at hrel
      rw [hta, htb] at hrel
      simp only at hrel
      omega
    · exact hba

/-- Witness for the amended C6: `GET /api/posts` on a table with the rows 1 and 2, and
post A created at time 10, post B at time 20, listed at time 30. -/
theorem list_returns_all_rows_newest_first_witness :
    (app (listRequest .api)
        ⟨[⟨1, "a", "b", some 5⟩, ⟨2, "c", "d", some 9⟩], 2, 10, none⟩).res.sent =
      [(200, Payload.json (JsonDoc.posts [⟨2, "c", "d", some 9⟩, ⟨1, "a", "b", some 5⟩]))] ∧
    [(⟨2, "c", "d", some 9⟩ : Row), ⟨1, "a", "b", some 5⟩].Perm
      [⟨1, "a", "b", some 5⟩, ⟨2, "c", "d", some 9⟩] ∧
    [(⟨2, "c", "d", some 9⟩ : Row), ⟨1, "a", "b", some 5⟩].Sorted tsDesc ∧
    (app (listRequest .api)
        ⟨[⟨1, "a", "b", some 5⟩, ⟨2, "c", "d", some 9⟩], 2, 10, none⟩).db =
      ⟨[⟨1, "a", "b", some 5⟩, ⟨2, "c", "d", some 9⟩], 2, 10, none⟩ ∧
    ∃ listed,
      (app (listRequest .api)
        ((app (createRequest .legacy [("title", .str "B"), ("content", .str "b")])
          ((app (createRequest .api [("title", .str "A"), ("content", .str "a")])
            ⟨[], 0, 10, none⟩).db.at 20)).db.at 30)).res.sent =
        [(200, Payload.json (JsonDoc.posts listed))] ∧
      List.Sublist [(⟨2, "B", "b", some 20⟩ : Row), ⟨1, "A", "a", some 10⟩] listed :=
  have h := list_returns_all_rows_newest_first .api
    ⟨[⟨1, "a", "b", some 5⟩, ⟨2, "c", "d", some 9⟩], 2, 10, none⟩
    ⟨[⟨1, "a", "b", some 5⟩, ⟨2, "c", "d", some 9⟩], 2, 10, none⟩
    [⟨2, "c", "d", some 9⟩, ⟨1, "a", "b", some 5⟩] rfl
  ⟨h.1, h.2.1, h.2.2.1, h.2.2.2.2.1,
    h.2.2.2.2.2 .api .legacy ⟨[], 0, 10, none⟩
      [("title", .str "A"), ("content", .str "a")] [("title", .str "B"), ("content", .str "b")]
      ⟨1, "A", "a", some 10⟩ ⟨2, "B", "b", some 20⟩ 20 30 (by decide) (by decide) (by decide)⟩

/-! ## Every run -/

theorem route_handler_cases (req req' : Request) (h : Request → Ctx → Except TypeError Ctx)
    (hr : route req = some (req', h)) :
    (h = postApiPosts ∧ req'.body = req.body) ∨ h = completes getApiPosts ∨
      h = completes deleteApiPostsId ∨ (h = postPosts ∧ req'.body = req.body) ∨
      h = completes getPosts ∨ h = completes deletePostsId ∨ h = completes getHealth ∨
      h = completes getRoot := by
  unfold route at hr
  split at hr <;> simp only [Option.some.injEq, Prod.mk.injEq, reduceCtorEq] at hr <;>
    (obtain ⟨rfl, rfl⟩ := hr; simp)

theorem postApiPosts_settled (req : Request) (db : DB) :
    (defaultErrorHandler (Ctx.afterCors db) (postApiPosts req (Ctx.afterCors db))).settled ∨
    (req.body = none ∧
      (defaultErrorHandler (Ctx.afterCors db) (postApiPosts req (Ctx.afterCors db))).res.sent =
        [(500, Payload.text "Internal Server Error")] ∧
      (defaultErrorHandler (Ctx.afterCors db) (postApiPosts req (Ctx.afterCors db))).queries = []) := by
  unfold postApiPosts
  cases hb : req.body with
  | none =>
    right
    simp [defaultErrorHandler, Ctx.status, Ctx.send, Ctx.afterCors]
  | some body =>
    left
    simp only []
    by_cases hv : (!(field body "title").truthy || !(field body "content").truthy) = true
    · left
      simp [hv, defaultErrorHandler, Ctx.status, Ctx.json, Ctx.send, Ctx.afterCors]
    · simp only [hv, if_false, Bool.false_eq_true]
      rcases hq : poolQuery (.insert (field body "title") (field body "content")) db
        with ⟨res, db'⟩
      cases res with
      | error e =>
        right
        exact ⟨.insert (field body "title") (field body "content"), e,
          "Error creating post:", by
          simp [defaultErrorHandler, Ctx.query, Ctx.afterCors, hq, Ctx.status, Ctx.json,
            Ctx.send, Ctx.consoleError]⟩
      | ok rows =>
        left
        cases rows <;>
          simp [defaultErrorHandler, Ctx.query, Ctx.afterCors, hq, Ctx.status, Ctx.jsonFirst,
            Ctx.json, Ctx.send]

theorem postPosts_settled (req : Request) (db : DB) :
    (defaultErrorHandler (Ctx.afterCors db) (postPosts req (Ctx.afterCors db))).settled ∨
    (req.body = none ∧
      (defaultErrorHandler (Ctx.afterCors db) (postPosts req (Ctx.afterCors db))).res.sent =
        [(500, Payload.text "Internal Server Error")] ∧
      (defaultErrorHandler (Ctx.afterCors db) (postPosts req (Ctx.afterCors db))).queries = []) := by
  unfold postPosts
  cases hb : req.body with
  | none =>
    right
    simp [defaultErrorHandler, Ctx.status, Ctx.send, Ctx.afterCors]
  | some body =>
    left
    simp only []
    by_cases hv : (!(field body "title").truthy || !(field body "content").truthy) = true
    · left
      simp [hv, defaultErrorHandler, Ctx.status, Ctx.json, Ctx.send, Ctx.afterCors]
    · simp only [hv, if_false, Bool.false_eq_true]
      rcases hq : poolQuery (.insert (field body "title") (field body "content")) db
        with ⟨res, db'⟩
      cases res with
      | error e =>
        right
        exact ⟨.insert (field body "title") (field body "content"), e,
          "Error creating post:", by
          simp [defaultErrorHandler, Ctx.query, Ctx.afterCors, hq, Ctx.status, Ctx.json,
            Ctx.send, Ctx.consoleError]⟩
      | ok rows =>
        left
        cases rows <;>
          simp [defaultErrorHandler, Ctx.query, Ctx.afterCors, hq, Ctx.status, Ctx.jsonFirst,
            Ctx.json, Ctx.send]

theorem getApiPosts_settled (req : Request) (db : DB) :
    (getApiPosts req (Ctx.afterCors db)).settled := by
  unfold getApiPosts
  rcases hq : poolQuery .selectAll db with ⟨res, db'⟩
  cases res with
  | error e =>
    right
    exact ⟨.selectAll, e, "Error fetching posts:", by
      simp [Ctx.query, Ctx.afterCors, hq, Ctx.status, Ctx.json, Ctx.send, Ctx.consoleError]⟩
  | ok rows =>
    left
    simp [Ctx.query, Ctx.afterCors, hq, Ctx.json, Ctx.send]

theorem getPosts_settled (req : Request) (db : DB) :
    (getPosts req (Ctx.afterCors db)).settled := by
  unfold getPosts
  rcases hq : poolQuery .selectAll db with ⟨res, db'⟩
  cases res with
  | error e =>
    right
    exact ⟨.selectAll, e, "Error fetching posts:", by
      simp [Ctx.query, Ctx.afterCors, hq, Ctx.status, Ctx.json, Ctx.send, Ctx.consoleError]⟩
  | ok rows =>
    left
    simp [Ctx.query, Ctx.afterCors, hq, Ctx.json, Ctx.send]

theorem deleteApiPostsId_settled (req : Request) (db : DB) :
    (deleteApiPostsId req (Ctx.afterCors db)).settled := by
  unfold deleteApiPostsId
  rcases hq : poolQuery (.delete (field req.params "id")) db with ⟨res, db'⟩
  cases res with
  | error e =>
    right
    exact ⟨.delete (field req.params "id"), e, "Error deleting post:", by
      simp [Ctx.query, Ctx.afterCors, hq, Ctx.status, Ctx.json, Ctx.send, Ctx.consoleError]⟩
  | ok rows =>
    left
    cases rows <;> simp [Ctx.query, Ctx.afterCors, hq, Ctx.status, Ctx.json, Ctx.send]

theorem deletePostsId_settled (req : Request) (db : DB) :
    (deletePostsId req (Ctx.afterCors db)).settled := by
  unfold deletePostsId
  rcases hq : poolQuery (.delete (field req.params "id")) db with ⟨res, db'⟩
  cases res with
  | error e =>
    right
    exact ⟨.delete (field req.params "id"), e, "Error deleting post:", by
      simp [Ctx.query, Ctx.afterCors, hq, Ctx.status, Ctx.json, Ctx.send, Ctx.consoleError]⟩
  | ok rows =>
    left
    cases rows <;> simp [Ctx.query, Ctx.afterCors, hq, Ctx.status, Ctx.json, Ctx.send]

/-- Every run of the application ends in one of the two ways of `Ctx.settled`, or, for
a request whose `req.body` is `undefined`, with the error page of the framework and
no query. -/
theorem app_settled (req : Request) (db : DB) :
    (app req db).settled ∨
    (req.body = none ∧
      (app req db).res.sent = [(500, Payload.text "Internal Server Error")] ∧
      (app req db).queries = []) := by
  by_cases hm : req.method = Method.OPTIONS
  · left
    left
    simp [app, corsMiddleware, hm, Ctx.sendStatus, Ctx.status, Ctx.send, Ctx.header, Ctx.start]
  · cases hr : route req with
    | none =>
      left
      left
      simp [app, cors_start_not_options req db hm, hr, Ctx.status, Ctx.send, Ctx.afterCors]
    | some rh =>
      obtain ⟨req', h⟩ := rh
      rw [app_of_route req req' h db hm hr]
      rcases route_handler_cases req req' h hr with
        ⟨rfl, hb⟩ | rfl | rfl | ⟨rfl, hb⟩ | rfl | rfl | rfl | rfl
      · rw [← hb]
        exact postApiPosts_settled req' db
      · exact Or.inl (getApiPosts_settled req' db)
      · exact Or.inl (deleteApiPostsId_settled req' db)
      · rw [← hb]
        exact postPosts_settled req' db
      · exact Or.inl (getPosts_settled req' db)
      · exact Or.inl (deletePostsId_settled req' db)
      · left
        left
        simp [completes, defaultErrorHandler, getHealth, Ctx.send, Ctx.afterCors]
      · left
        left
        simp [completes, defaultErrorHandler, getRoot, Ctx.json, Ctx.send, Ctx.afterCors]

/-- Claim C7: whenever a query handed to the pool during the run of a request fails
with an error `err` (in the create, list or delete handler, under either prefix), the
request is answered with status 500 and body `{error: err.message}`, no other
response is written, and the failed query is the only query of the run (no retry). -/
theorem persistence_failure_gives_500_once (req : Request) (db : DB) (q : Query) (err : PgError)
    (h : (q, Except.error err) ∈ (app req db).queries) :
    (app req db).res.sent = [(500, Payload.json (JsonDoc.error err.message))] ∧
    (app req db).queries = [(q, Except.error err)] := by
  rcases app_settled req db with
    (⟨status, body, -, -, -, hnone⟩ | ⟨q', err', label, hsent, -, hqs⟩) | ⟨-, -, hqs⟩
  · exact absurd h (hnone q err)
  · rw [hqs, List.mem_singleton, Prod.mk.injEq, Except.error.injEq] at h
    obtain ⟨rfl, rfl⟩ := h
    exact ⟨hsent, hqs⟩
  · rw [hqs] at h
    exact absurd h (List.not_mem_nil _)

/-- Witness for C7: `GET /posts` and `POST /api/posts` while the pool cannot reach the
server, and `DELETE /api/posts/abc`, whose id the server rejects. -/
theorem persistence_failure_gives_500_once_witness :
    ((app (listRequest .legacy) ⟨[], 0, 10, some "connection refused"⟩).res.sent =
        [(500, Payload.json (JsonDoc.error "connection refused"))] ∧
      (app (listRequest .legacy) ⟨[], 0, 10, some "connection refused"⟩).queries =
        [(Query.selectAll, Except.error ⟨"connection refused"⟩)]) ∧
    ((app (createRequest .api [("title", .str "x"), ("content", .str "y")])
          ⟨[], 0, 10, some "connection refused"⟩).res.sent =
        [(500, Payload.json (JsonDoc.error "connection refused"))] ∧
      (app (createRequest .api [("title", .str "x"), ("content", .str "y")])
          ⟨[], 0, 10, some "connection refused"⟩).queries =
        [(Query.insert (.str "x") (.str "y"), Except.error ⟨"connection refused"⟩)]) ∧
    ((app (deleteRequest .api "abc") ⟨[⟨1, "a", "b", some 5⟩], 1, 10, none⟩).res.sent =
        [(500, Payload.json (JsonDoc.error "invalid input syntax for type integer: abc"))] ∧
      (app (deleteRequest .api "abc") ⟨[⟨1, "a", "b", some 5⟩], 1, 10, none⟩).queries =
        [(Query.delete (.str "abc"),
          Except.error ⟨"invalid input syntax for type integer: abc"⟩)]) :=
  ⟨persistence_failure_gives_500_once (listRequest .legacy)
      ⟨[], 0, 10, some "connection refused"⟩ Query.selectAll ⟨"connection refused"⟩
      (List.Mem.head _),
    persistence_failure_gives_500_once
      (createRequest .api [("title", .str "x"), ("content", .str "y")])
      ⟨[], 0, 10, some "connection refused"⟩ (Query.insert (.str "x") (.str "y"))
      ⟨"connection refused"⟩ (List.Mem.head _),
    persistence_failure_gives_500_once (deleteRequest .api "abc")
      ⟨[⟨1, "a", "b", some 5⟩], 1, 10, none⟩ (Query.delete (.str "abc"))
      ⟨"invalid input syntax for type integer: abc"⟩ (List.Mem.head _)⟩

/-- Claim C8 as stated fails on the 400 and the 404 path: an empty body sent to
`POST /api/posts` is answered with 400, and `DELETE /api/posts/7` on an empty table
with 404, and in both runs nothing is logged. -/
theorem validation_and_not_found_log_nothing :
    (app (createRequest .api []) ⟨[], 0, 10, none⟩).res.sent =
      [(400, Payload.json (JsonDoc.error "The title and content fields are mandatory."))] ∧
    (app (createRequest .api []) ⟨[], 0, 10, none⟩).log = [] ∧
    (app (deleteRequest .api "7") ⟨[], 0, 10, none⟩).res.sent =
      [(404, Payload.json (JsonDoc.error "Post not found"))] ∧
    (app (deleteRequest .api "7") ⟨[], 0, 10, none⟩).log = [] := by
  decide

/-- Claim C8, amended: every run writes exactly one response; a run that a handler
ends with status 500 logged exactly one diagnostic, for the error whose message the
body carries, and every other run that a handler ends (the 400 of the validation and
the 404 of delete among them) logged nothing. The one run that no handler ends is
that of a request whose `req.body` is `undefined` and whose handler throws on it: it
is answered with the error page of the framework. -/
theorem one_response_and_diagnostic_only_on_500 (req : Request) (db : DB) :
    ∃ status body, (app req db).res.sent = [(status, body)] ∧
      ((status = 500 ∧ ∃ entry, (app req db).log = [entry] ∧
          body = Payload.json (JsonDoc.error entry.err.message)) ∨
        (status ≠ 500 ∧ (app req db).log = []) ∨
        (req.body = none ∧ status = 500 ∧ body = Payload.text "Internal Server Error")) := by
  rcases app_settled req db with
    (⟨status, body, hsent, hne, hlog, -⟩ | ⟨q, err, label, hsent, hlog, -⟩) | ⟨hb, hsent, -⟩
  · exact ⟨status, body, hsent, Or.inr (Or.inl ⟨hne, hlog⟩)⟩
  · exact ⟨500, _, hsent, Or.inl ⟨rfl, ⟨label, err⟩, hlog, rfl⟩⟩
  · exact ⟨500, _, hsent, Or.inr (Or.inr ⟨hb, rfl, rfl⟩)⟩

/-- Claim C9 as stated fails on the body of the preflight answer: an `OPTIONS` request
is answered with status 200 and the text `OK` as body, which is not an empty body. -/
theorem options_response_has_body :
    (app ⟨.OPTIONS, ["api", "posts"], none, []⟩ ⟨[], 0, 10, none⟩).res.sent =
      [(200, Payload.text "OK")] ∧
    Payload.text "OK" ≠ Payload.empty := by
  decide

/-- Claim C9, amended: on every request the middleware sets the three
`Access-Control-Allow-*` headers; on `OPTIONS` it answers with status 200 and the text
`OK` and does not call `next()`, so that the run of the application ends there, with no
query and the database untouched; on every other method it calls `next()` and writes
no response itself. -/
theorem cors_sets_headers_and_answers_options (req : Request) (db : DB) :
    corsMiddleware req (Ctx.start db) =
      (if req.method = Method.OPTIONS then
        (⟨db, ⟨200,
          [("Access-Control-Allow-Origin", "*"),
           ("Access-Control-Allow-Methods", "GET, POST, PUT, DELETE, OPTIONS"),
           ("Access-Control-Allow-Headers", "Origin, X-Requested-With, Content-Type, Accept")],
          [(200, Payload.text "OK")]⟩, [], []⟩, false)
      else
        (⟨db, ⟨200,
          [("Access-Control-Allow-Origin", "*"),
           ("Access-Control-Allow-Methods", "GET, POST, PUT, DELETE, OPTIONS"),
           ("Access-Control-Allow-Headers", "Origin, X-Requested-With, Content-Type, Accept")],
          []⟩, [], []⟩, true)) ∧
    (if req.method = Method.OPTIONS then
        app req db = (corsMiddleware req (Ctx.start db)).1 ∧
        (app req db).queries = [] ∧ (app req db).db = db
      else
        (corsMiddleware req (Ctx.start db)).1.res.sent = []) := by
  by_cases hm : req.method = Method.OPTIONS
  · have hrun : corsMiddleware req (Ctx.start db) =
        (⟨db, ⟨200, corsHeaders, [(200, Payload.text "OK")]⟩, [], []⟩, false) := by
      simp only [corsMiddleware, hm, if_true]
      rfl
    rw [if_pos hm, if_pos hm]
    have happ : app req db = (corsMiddleware req (Ctx.start db)).1 := by
      simp only [app, hrun]
    rw [happ, hrun]
    exact ⟨rfl, rfl, rfl, rfl⟩
  · rw [if_neg hm, if_neg hm, cors_start_not_options req db hm]
    exact ⟨rfl, rfl⟩

/-- Claim C10: in every database state, one whose pool rejects every query included,
`GET /health` is answered with status 200 and the text `OK`, hands no query to the
pool, logs nothing and leaves the database as it was. -/
theorem health_is_ok_without_database (db : DB) :
    (app healthRequest db).res.sent = [(200, Payload.text "OK")] ∧
    (app healthRequest db).queries = [] ∧
    (app healthRequest db).log = [] ∧
    (app healthRequest db).db = db ∧
    ∀ msg, (app healthRequest { db with fault := some msg }).res.sent =
      [(200, Payload.text "OK")] := by
  have hrun : ∀ d, app healthRequest d = ⟨d, ⟨200, corsHeaders, [(200, Payload.text "OK")]⟩, [], []⟩ := by
    intro d
    rw [app_health]
    rfl
  rw [hrun]
  exact ⟨rfl, rfl, rfl, rfl, fun msg => by rw [hrun]⟩

end MiniBlog
